import Mathlib

set_option autoImplicit false

/-!
Shallow embedding of `rl_glue.py`: the `RLGlue` mediator between a
reinforcement-learning agent and an environment, together with the two
capability contracts it calls (`BaseAgent`, `BaseEnvironment`).

Modelling choices:
* The agent and environment objects are split into a record of pure
  state-transition functions (`Agent`, `Env`) and an explicitly threaded
  state value, as usual for a shallow embedding of stateful objects.
* Rewards are modelled as integers (`Int`); the mediator only accumulates
  them, so only additive structure matters.
* The action stored in the mediator (`self._action`) is `Option Act`:
  Python initialises it to `None` and `agent_end` conventionally returns
  `None`; `env_step` therefore receives an `Option Act`.
* Every mediator operation additionally returns the list of collaborator
  calls it makes (`Event`s), so call order and dispatched values are
  observable in theorems.
* A freshly constructed mediator (before `rl_init`) has all five
  statistics set to Python `None`; this pre-init state is `RLGlueRaw`,
  with `Option Int` fields.  `rl_init` produces the initialised state
  `Glue`, on which all other operations act (calling them before
  `rl_init` would raise in Python).
* The `while` loop of `rl_episode` may diverge (e.g. `max_steps <= 0`
  with a never-terminating environment), so it is modelled with explicit
  fuel, returning `none` when the fuel is exhausted before the loop
  exits.
-/

/-- Environment capability contract (`BaseEnvironment`): internal state
`σ`, observations `Obs`, actions `Act`.  `env_step` receives the
mediator's stored action, which may be `none` (Python `None`).
`env_message` may return `none` (Python `None`). -/
structure Env (σ Obs Act : Type) where
  env_init : σ → σ
  env_start : σ → σ × Obs
  env_step : σ → Option Act → σ × (Int × Obs × Bool)
  env_message : σ → String → σ × Option String

/-- Agent capability contract (`BaseAgent`): internal state `α`.
`agent_end` may return `none` (a Python method without `return` returns
`None`); `agent_message` may return `none`. -/
structure Agent (α Obs Act : Type) where
  agent_init : α → α
  agent_start : α → Obs → α × Act
  agent_step : α → Int → Obs → Bool → α × Act
  agent_end : α → Int → Obs → Bool → α × Option Act
  agent_message : α → String → α × Option String

/-- One collaborator call made by the mediator, recording the values
dispatched to and received from the agent/environment. -/
inductive Event (Obs Act : Type) where
  | agentInit : Event Obs Act
  | envInit : Event Obs Act
  | envStart (obs : Obs) : Event Obs Act
  | agentStart (obs : Obs) (act : Act) : Event Obs Act
  | envStep (act : Option Act) (reward : Int) (obs : Obs) (terminal : Bool) : Event Obs Act
  | agentStep (reward : Int) (obs : Obs) (terminal : Bool) (act : Act) : Event Obs Act
  | agentEnd (reward : Int) (obs : Obs) (terminal : Bool) : Event Obs Act
  | agentMsg (sent : String) (response : Option String) : Event Obs Act
  | envMsg (sent : String) (response : Option String) : Event Obs Act
  deriving DecidableEq

/-- The mediator right after construction (`RLGlue.__init__`): the five
statistics and the stored action are Python `None`. -/
structure RLGlueRaw (σ α Act : Type) where
  _environment : σ
  _agent : α
  _total_reward : Option Int
  _num_steps : Option Int
  _num_episodes : Option Int
  _episode_reward : Option Int
  _num_ep_steps : Option Int
  _action : Option Act

/-- `RLGlue.__init__(env_obj, agent_obj)`. -/
def mkRLGlue {σ α Act : Type} (env_obj : σ) (agent_obj : α) : RLGlueRaw σ α Act where
  _environment := env_obj
  _agent := agent_obj
  _total_reward := none
  _num_steps := none
  _num_episodes := none
  _episode_reward := none
  _num_ep_steps := none
  _action := none

/-- Accessor `RLGlue.total_reward` on a pre-init mediator. -/
def RLGlueRaw.total_reward {σ α Act : Type} (g : RLGlueRaw σ α Act) : Option Int :=
  g._total_reward

/-- Accessor `RLGlue.episode_reward` on a pre-init mediator. -/
def RLGlueRaw.episode_reward {σ α Act : Type} (g : RLGlueRaw σ α Act) : Option Int :=
  g._episode_reward

/-- Accessor `RLGlue.num_steps` on a pre-init mediator. -/
def RLGlueRaw.num_steps {σ α Act : Type} (g : RLGlueRaw σ α Act) : Option Int :=
  g._num_steps

/-- Accessor `RLGlue.num_episodes` on a pre-init mediator. -/
def RLGlueRaw.num_episodes {σ α Act : Type} (g : RLGlueRaw σ α Act) : Option Int :=
  g._num_episodes

/-- Accessor `RLGlue.num_ep_steps` on a pre-init mediator. -/
def RLGlueRaw.num_ep_steps {σ α Act : Type} (g : RLGlueRaw σ α Act) : Option Int :=
  g._num_ep_steps

/-- The mediator after `rl_init`: all statistics hold numbers. -/
structure Glue (σ α Act : Type) where
  _environment : σ
  _agent : α
  _total_reward : Int
  _num_steps : Int
  _num_episodes : Int
  _episode_reward : Int
  _num_ep_steps : Int
  _action : Option Act
  deriving DecidableEq

/-- Accessor `RLGlue.total_reward`. -/
def Glue.total_reward {σ α Act : Type} (g : Glue σ α Act) : Int :=
  g._total_reward

/-- Accessor `RLGlue.episode_reward`. -/
def Glue.episode_reward {σ α Act : Type} (g : Glue σ α Act) : Int :=
  g._episode_reward

/-- Accessor `RLGlue.num_steps`. -/
def Glue.num_steps {σ α Act : Type} (g : Glue σ α Act) : Int :=
  g._num_steps

/-- Accessor `RLGlue.num_episodes`. -/
def Glue.num_episodes {σ α Act : Type} (g : Glue σ α Act) : Int :=
  g._num_episodes

/-- Accessor `RLGlue.num_ep_steps`. -/
def Glue.num_ep_steps {σ α Act : Type} (g : Glue σ α Act) : Int :=
  g._num_ep_steps

/-- `RLGlue.rl_init(total_reward=0, num_steps=0, num_episodes=0)`: set the
run counters to the given values, zero the episode counters, clear the
stored action, then call `agent_init` and `env_init` in that order. -/
def rl_init {σ α Obs Act : Type} (E : Env σ Obs Act) (A : Agent α Obs Act)
    (g : RLGlueRaw σ α Act) (total_reward num_steps num_episodes : Int) :
    Glue σ α Act × List (Event Obs Act) :=
  let ag1 := A.agent_init g._agent
  let env1 := E.env_init g._environment
  ({ _environment := env1
     _agent := ag1
     _total_reward := total_reward
     _num_steps := num_steps
     _num_episodes := num_episodes
     _episode_reward := 0
     _num_ep_steps := 0
     _action := none },
   [Event.agentInit, Event.envInit])

/-- `RLGlue.rl_start()`: zero the episode counters, increment
`_num_episodes` (the source comment says this was moved here from
`rl_step`), ask the environment for the initial state, ask the agent for
the first action, store it, and return `(state, action)`. -/
def rl_start {σ α Obs Act : Type} (E : Env σ Obs Act) (A : Agent α Obs Act)
    (g : Glue σ α Act) :
    (Obs × Act) × Glue σ α Act × List (Event Obs Act) :=
  let g1 := { g with _episode_reward := 0, _num_ep_steps := 0,
                     _num_episodes := g._num_episodes + 1 }
  let es := E.env_start g1._environment
  let state := es.2
  let ag := A.agent_start g1._agent state
  let action := ag.2
  ((state, action),
   { g1 with _environment := es.1, _agent := ag.1, _action := some action },
   [Event.envStart state, Event.agentStart state action])

/-- `RLGlue.rl_step()`: feed the stored action to `env_step`; increment
`_num_ep_steps` and `_num_steps`; add the reward to `_total_reward` and
`_episode_reward`; then call `agent_end` (terminal) or `agent_step`
(non-terminal) with `(reward, next_state, terminal)`, storing the result
as the new action; return `(reward, next_state, terminal, action)`. -/
def rl_step {σ α Obs Act : Type} (E : Env σ Obs Act) (A : Agent α Obs Act)
    (g : Glue σ α Act) :
    (Int × Obs × Bool × Option Act) × Glue σ α Act × List (Event Obs Act) :=
  let es := E.env_step g._environment g._action
  let reward := es.2.1
  let next_state := es.2.2.1
  let terminal := es.2.2.2
  let g1 := { g with _environment := es.1
                     _num_ep_steps := g._num_ep_steps + 1
                     _num_steps := g._num_steps + 1
                     _total_reward := g._total_reward + reward
                     _episode_reward := g._episode_reward + reward }
  if terminal then
    let ae := A.agent_end g1._agent reward next_state terminal
    ((reward, next_state, terminal, ae.2),
     { g1 with _agent := ae.1, _action := ae.2 },
     [Event.envStep g._action reward next_state terminal,
      Event.agentEnd reward next_state terminal])
  else
    let ag := A.agent_step g1._agent reward next_state terminal
    ((reward, next_state, terminal, some ag.2),
     { g1 with _agent := ag.1, _action := some ag.2 },
     [Event.envStep g._action reward next_state terminal,
      Event.agentStep reward next_state terminal ag.2])

/-- The `while` loop of `RLGlue.rl_episode`, with explicit fuel: while
`not terminal and (max_steps_this_episode <= 0 or _num_ep_steps <
max_steps_this_episode)`, take an `rl_step`.  Returns `none` when the
fuel runs out before the loop exits. -/
def rl_episode_loop {σ α Obs Act : Type} (E : Env σ Obs Act) (A : Agent α Obs Act)
    (max_steps_this_episode : Int) :
    Nat → Bool → Glue σ α Act → Option (Bool × Glue σ α Act × List (Event Obs Act))
  | 0, terminal, g =>
    if terminal = false ∧ (max_steps_this_episode ≤ 0 ∨ g._num_ep_steps < max_steps_this_episode)
    then none
    else some (terminal, g, [])
  | fuel + 1, terminal, g =>
    if terminal = false ∧ (max_steps_this_episode ≤ 0 ∨ g._num_ep_steps < max_steps_this_episode)
    then
      let r := rl_step E A g
      match rl_episode_loop E A max_steps_this_episode fuel r.1.2.2.1 r.2.1 with
      | none => none
      | some (t, g2, ev) => some (t, g2, r.2.2 ++ ev)
    else some (terminal, g, [])

/-- `RLGlue.rl_episode(max_steps_this_episode=0)`: `rl_start`, then the
step loop, then one more `_num_episodes` increment; returns the final
terminal flag (with the fuel-indexed loop: `none` if the fuel ran out). -/
def rl_episode {σ α Obs Act : Type} (E : Env σ Obs Act) (A : Agent α Obs Act)
    (max_steps_this_episode : Int) (fuel : Nat) (g : Glue σ α Act) :
    Option (Bool × Glue σ α Act × List (Event Obs Act)) :=
  let s := rl_start E A g
  match rl_episode_loop E A max_steps_this_episode fuel false s.2.1 with
  | none => none
  | some (t, g2, ev) =>
    some (t, { g2 with _num_episodes := g2._num_episodes + 1 }, s.2.2 ++ ev)

/-- `RLGlue.rl_env_start()`: zero `_num_ep_steps` and return the
environment's initial observation directly (agent not consulted). -/
def rl_env_start {σ α Obs Act : Type} (E : Env σ Obs Act)
    (g : Glue σ α Act) : Obs × Glue σ α Act × List (Event Obs Act) :=
  let g1 := { g with _num_ep_steps := 0 }
  let es := E.env_start g1._environment
  (es.2, { g1 with _environment := es.1 }, [Event.envStart es.2])

/-- `RLGlue.rl_env_step(action)`: feed the given action directly to
`env_step`; add the reward to `_total_reward`; on terminal increment
`_num_episodes`, otherwise increment `_num_ep_steps` and `_num_steps`;
return `(reward, state, terminal)`. -/
def rl_env_step {σ α Obs Act : Type} (E : Env σ Obs Act)
    (g : Glue σ α Act) (action : Option Act) :
    (Int × Obs × Bool) × Glue σ α Act × List (Event Obs Act) :=
  let es := E.env_step g._environment action
  let reward := es.2.1
  let state := es.2.2.1
  let terminal := es.2.2.2
  let g1 := { g with _environment := es.1, _total_reward := g._total_reward + reward }
  let g2 :=
    if terminal then { g1 with _num_episodes := g1._num_episodes + 1 }
    else { g1 with _num_ep_steps := g1._num_ep_steps + 1, _num_steps := g1._num_steps + 1 }
  ((reward, state, terminal), g2, [Event.envStep action reward state terminal])

/-- `RLGlue.rl_agent_message(message)`: a `None` message is replaced by
`""` before dispatch; a `None` agent response is replaced by `""` before
being returned. -/
def rl_agent_message {σ α Obs Act : Type} (A : Agent α Obs Act)
    (g : Glue σ α Act) (message : Option String) :
    String × Glue σ α Act × List (Event Obs Act) :=
  let message_to_send := match message with | none => "" | some m => m
  let ar := A.agent_message g._agent message_to_send
  let the_agent_response := match ar.2 with | none => "" | some s => s
  (the_agent_response, { g with _agent := ar.1 },
   [Event.agentMsg message_to_send ar.2])

/-- `RLGlue.rl_env_message(message)`: same `None`-to-`""` normalization
as `rl_agent_message`, on the environment side. -/
def rl_env_message {σ α Obs Act : Type} (E : Env σ Obs Act)
    (g : Glue σ α Act) (message : Option String) :
    String × Glue σ α Act × List (Event Obs Act) :=
  let message_to_send := match message with | none => "" | some m => m
  let er := E.env_message g._environment message_to_send
  let the_env_response := match er.2 with | none => "" | some s => s
  (the_env_response, { g with _environment := er.1 },
   [Event.envMsg message_to_send er.2])

/-- One mediator operation of an experiment-driver trace (the primitive
operations other than `rl_init`; `rl_episode` is their composition plus a
final counter increment). -/
inductive Op (Act : Type) where
  | start : Op Act
  | step : Op Act
  | envStart : Op Act
  | envStep (action : Option Act) : Op Act
  | agentMsg (message : Option String) : Op Act
  | envMsg (message : Option String) : Op Act

/-- Run one mediator operation, keeping the new state and the events. -/
def runOp {σ α Obs Act : Type} (E : Env σ Obs Act) (A : Agent α Obs Act)
    (g : Glue σ α Act) : Op Act → Glue σ α Act × List (Event Obs Act)
  | Op.start => (rl_start E A g).2
  | Op.step => (rl_step E A g).2
  | Op.envStart => (rl_env_start E g).2
  | Op.envStep a => (rl_env_step E g a).2
  | Op.agentMsg m => (rl_agent_message A g m).2
  | Op.envMsg m => (rl_env_message E g m).2

/-- Run a list of mediator operations, concatenating the event traces. -/
def runOps {σ α Obs Act : Type} (E : Env σ Obs Act) (A : Agent α Obs Act)
    (g : Glue σ α Act) : List (Op Act) → Glue σ α Act × List (Event Obs Act)
  | [] => (g, [])
  | op :: ops =>
    let r := runOp E A g op
    let rs := runOps E A r.1 ops
    (rs.1, r.2 ++ rs.2)

/-- The reward carried by an event: the reward an `env_step` call
returned, and `0` for every other collaborator call. -/
def eventReward {Obs Act : Type} : Event Obs Act → Int
  | Event.envStep _ r _ _ => r
  | _ => 0

/-- Sum of the rewards returned by the `env_step` calls in a trace. -/
def sumRewards {Obs Act : Type} (ev : List (Event Obs Act)) : Int :=
  (ev.map eventReward).sum

/-- Whether an event is an `env_step` call. -/
def isEnvStep {Obs Act : Type} : Event Obs Act → Bool
  | Event.envStep _ _ _ _ => true
  | _ => false

/-- Number of `env_step` calls in a trace. -/
def stepCount {Obs Act : Type} (ev : List (Event Obs Act)) : Nat :=
  ev.countP isEnvStep

/-- Whether an operation is `rl_step`. -/
def isStepOp {Act : Type} : Op Act → Bool
  | Op.step => true
  | _ => false

/-- Whether an operation belongs to the normal agent-driven protocol
(`rl_start` or `rl_step`). -/
def isProtocolOp {Act : Type} : Op Act → Bool
  | Op.start => true
  | Op.step => true
  | _ => false

/-- A script environment: its state is the list of `(reward, terminal)`
responses it still has to play, independent of the actions it receives;
past the end of the script it answers `(0, false)` forever.  Observations
and actions are `Unit`.  Instantiating the script realises an arbitrary
sequence of environment responses. -/
def scriptEnv : Env (List (Int × Bool)) Unit Unit where
  env_init s := s
  env_start s := (s, ())
  env_step s _ :=
    match s with
    | [] => ([], (0, (), false))
    | p :: rest => (rest, (p.1, (), p.2))
  env_message s _ := (s, none)

/-- A stateless environment that never terminates and always returns
reward `0`. -/
def constEnv : Env Unit Unit Unit where
  env_init _ := ()
  env_start _ := ((), ())
  env_step _ _ := ((), (0, (), false))
  env_message _ _ := ((), none)

/-- A trivial stateless agent whose only action is `()`; its `agent_end`
and `agent_message` return `none` (Python `None`). -/
def nullAgent : Agent Unit Unit Unit where
  agent_init a := a
  agent_start a _ := (a, ())
  agent_step a _ _ _ := (a, ())
  agent_end a _ _ _ := (a, none)
  agent_message a _ := (a, none)

/-- Initialised mediator over a given script, with all counters zero. -/
def scriptGlue (script : List (Int × Bool)) : Glue (List (Int × Bool)) Unit Unit :=
  (rl_init scriptEnv nullAgent (mkRLGlue script ()) 0 0 0).1

/-- Initialised mediator over the never-terminating constant environment,
with all counters zero. -/
def constGlue : Glue Unit Unit Unit :=
  (rl_init constEnv nullAgent (mkRLGlue () ()) 0 0 0).1

/-- Unfolding helper: the Python `if x is None: x = ""` pattern equals
`Option.getD`. -/
theorem matchStr_eq_getD (o : Option String) :
    (match o with | none => "" | some s => s) = o.getD "" := by
  cases o <;> rfl

/-- C10: every accessor called on a freshly constructed mediator, before
`rl_init` has run, returns Python `None` rather than a number. -/
theorem C10_accessors_none_before_init {σ α Act : Type} (env_obj : σ) (agent_obj : α) :
    (mkRLGlue env_obj agent_obj : RLGlueRaw σ α Act).total_reward = none ∧
    (mkRLGlue env_obj agent_obj : RLGlueRaw σ α Act).episode_reward = none ∧
    (mkRLGlue env_obj agent_obj : RLGlueRaw σ α Act).num_steps = none ∧
    (mkRLGlue env_obj agent_obj : RLGlueRaw σ α Act).num_episodes = none ∧
    (mkRLGlue env_obj agent_obj : RLGlueRaw σ α Act).num_ep_steps = none :=
  ⟨rfl, rfl, rfl, rfl, rfl⟩

/-- C5: `rl_init(t, s, e)` sets the run counters to exactly `t`, `s`,
`e`, zeroes `episode_reward` and `num_ep_steps`, clears the stored
action, and calls `agent_init` before `env_init`; the accessors then read
exactly those values. -/
theorem C5_rl_init_spec {σ α Obs Act : Type} (E : Env σ Obs Act) (A : Agent α Obs Act)
    (g : RLGlueRaw σ α Act) (t s e : Int) :
    (rl_init E A g t s e).1.total_reward = t ∧
    (rl_init E A g t s e).1.num_steps = s ∧
    (rl_init E A g t s e).1.num_episodes = e ∧
    (rl_init E A g t s e).1.episode_reward = 0 ∧
    (rl_init E A g t s e).1.num_ep_steps = 0 ∧
    (rl_init E A g t s e).1._action = none ∧
    (rl_init E A g t s e).1._agent = A.agent_init g._agent ∧
    (rl_init E A g t s e).1._environment = E.env_init g._environment ∧
    (rl_init E A g t s e).2 = [Event.agentInit, Event.envInit] :=
  ⟨rfl, rfl, rfl, rfl, rfl, rfl, rfl, rfl, rfl⟩

/-- C6: `rl_step` feeds the stored action to the environment, increments
`num_ep_steps` and `num_steps` by one, adds the returned reward to both
`episode_reward` and `total_reward`, then calls `agent_end` with
`(reward, next_state, terminal)` and stores its return value when
terminal, and otherwise calls `agent_step` with the same triple and
stores the returned action; it returns
`(reward, next_state, terminal, action)`. -/
theorem C6_rl_step_spec {σ α Obs Act : Type} (E : Env σ Obs Act) (A : Agent α Obs Act)
    (g : Glue σ α Act) :
    let es := E.env_step g._environment g._action
    let reward := es.2.1
    let next_state := es.2.2.1
    let terminal := es.2.2.2
    let r := rl_step E A g
    r.2.1.num_ep_steps = g.num_ep_steps + 1 ∧
    r.2.1.num_steps = g.num_steps + 1 ∧
    r.2.1.total_reward = g.total_reward + reward ∧
    r.2.1.episode_reward = g.episode_reward + reward ∧
    r.2.1._environment = es.1 ∧
    r.2.1._agent = (if terminal then (A.agent_end g._agent reward next_state terminal).1
                    else (A.agent_step g._agent reward next_state terminal).1) ∧
    r.2.1._action = (if terminal then (A.agent_end g._agent reward next_state terminal).2
                     else some (A.agent_step g._agent reward next_state terminal).2) ∧
    r.1 = (reward, next_state, terminal, r.2.1._action) ∧
    r.2.2 = (if terminal then
               [Event.envStep g._action reward next_state terminal,
                Event.agentEnd reward next_state terminal]
             else
               [Event.envStep g._action reward next_state terminal,
                Event.agentStep reward next_state terminal
                  (A.agent_step g._agent reward next_state terminal).2]) := by
  cases hb : (E.env_step g._environment g._action).2.2.2 <;>
    simp [rl_step, Glue.num_ep_steps, Glue.num_steps, Glue.total_reward,
          Glue.episode_reward, hb]

/-- C9: `rl_env_step(action)` feeds the action directly to the
environment (the only collaborator call), adds the reward to
`total_reward` only, increments `num_episodes` when terminal, and
otherwise increments `num_ep_steps` and `num_steps`; it returns
`(reward, state, terminal)`. -/
theorem C9_rl_env_step_spec {σ α Obs Act : Type} (E : Env σ Obs Act)
    (g : Glue σ α Act) (action : Option Act) :
    let es := E.env_step g._environment action
    let reward := es.2.1
    let state := es.2.2.1
    let terminal := es.2.2.2
    let r := rl_env_step E g action
    r.1 = (reward, state, terminal) ∧
    r.2.1.total_reward = g.total_reward + reward ∧
    r.2.1.episode_reward = g.episode_reward ∧
    r.2.1._agent = g._agent ∧
    r.2.1._action = g._action ∧
    r.2.1.num_episodes = (if terminal then g.num_episodes + 1 else g.num_episodes) ∧
    r.2.1.num_ep_steps = (if terminal then g.num_ep_steps else g.num_ep_steps + 1) ∧
    r.2.1.num_steps = (if terminal then g.num_steps else g.num_steps + 1) ∧
    r.2.2 = [Event.envStep action reward state terminal] := by
  cases hb : (E.env_step g._environment action).2.2.2 <;>
    simp [rl_env_step, Glue.num_ep_steps, Glue.num_steps, Glue.total_reward,
          Glue.episode_reward, Glue.num_episodes, hb]

/-- C8: `rl_agent_message` and `rl_env_message` replace a `None` message
by `""` before dispatching it to the collaborator, and replace a `None`
collaborator response by `""` before returning it. -/
theorem C8_message_normalization {σ α Obs Act : Type} (E : Env σ Obs Act)
    (A : Agent α Obs Act) (g : Glue σ α Act) (message : Option String) :
    (rl_agent_message A g message).2.2 =
      [Event.agentMsg (message.getD "") (A.agent_message g._agent (message.getD "")).2] ∧
    (rl_agent_message A g message).1 =
      ((A.agent_message g._agent (message.getD "")).2).getD "" ∧
    (rl_env_message E g message).2.2 =
      [Event.envMsg (message.getD "") (E.env_message g._environment (message.getD "")).2] ∧
    (rl_env_message E g message).1 =
      ((E.env_message g._environment (message.getD "")).2).getD "" := by
  cases message <;>
    simp [rl_agent_message, rl_env_message, matchStr_eq_getD, Option.getD]

/-- `rl_step` leaves `_num_episodes` unchanged in both branches. -/
theorem rl_step_num_episodes {σ α Obs Act : Type} (E : Env σ Obs Act)
    (A : Agent α Obs Act) (g : Glue σ α Act) :
    (rl_step E A g).2.1._num_episodes = g._num_episodes := by
  cases hb : (E.env_step g._environment g._action).2.2.2 <;> simp [rl_step, hb]

/-- `rl_step` increments `_num_ep_steps` by one in both branches. -/
theorem rl_step_num_ep_steps {σ α Obs Act : Type} (E : Env σ Obs Act)
    (A : Agent α Obs Act) (g : Glue σ α Act) :
    (rl_step E A g).2.1._num_ep_steps = g._num_ep_steps + 1 := by
  cases hb : (E.env_step g._environment g._action).2.2.2 <;> simp [rl_step, hb]

/-- `rl_step` increments `_num_steps` by one in both branches. -/
theorem rl_step_num_steps {σ α Obs Act : Type} (E : Env σ Obs Act)
    (A : Agent α Obs Act) (g : Glue σ α Act) :
    (rl_step E A g).2.1._num_steps = g._num_steps + 1 := by
  cases hb : (E.env_step g._environment g._action).2.2.2 <;> simp [rl_step, hb]

/-- `rl_step` adds the environment's reward to `_total_reward`. -/
theorem rl_step_total_reward {σ α Obs Act : Type} (E : Env σ Obs Act)
    (A : Agent α Obs Act) (g : Glue σ α Act) :
    (rl_step E A g).2.1._total_reward =
      g._total_reward + (E.env_step g._environment g._action).2.1 := by
  cases hb : (E.env_step g._environment g._action).2.2.2 <;> simp [rl_step, hb]

/-- `rl_step` adds the environment's reward to `_episode_reward`. -/
theorem rl_step_episode_reward {σ α Obs Act : Type} (E : Env σ Obs Act)
    (A : Agent α Obs Act) (g : Glue σ α Act) :
    (rl_step E A g).2.1._episode_reward =
      g._episode_reward + (E.env_step g._environment g._action).2.1 := by
  cases hb : (E.env_step g._environment g._action).2.2.2 <;> simp [rl_step, hb]

/-- The terminal flag returned by `rl_step` is the one `env_step`
produced. -/
theorem rl_step_ret_terminal {σ α Obs Act : Type} (E : Env σ Obs Act)
    (A : Agent α Obs Act) (g : Glue σ α Act) :
    (rl_step E A g).1.2.2.1 = (E.env_step g._environment g._action).2.2.2 := by
  cases hb : (E.env_step g._environment g._action).2.2.2 <;> simp [rl_step, hb]

/-- One `rl_step` contributes exactly one `env_step` call to the trace. -/
theorem rl_step_stepCount {σ α Obs Act : Type} (E : Env σ Obs Act)
    (A : Agent α Obs Act) (g : Glue σ α Act) :
    stepCount (rl_step E A g).2.2 = 1 := by
  cases hb : (E.env_step g._environment g._action).2.2.2 <;>
    simp [rl_step, hb, stepCount, isEnvStep]

/-- `rl_start` contributes no `env_step` call to the trace. -/
theorem rl_start_stepCount {σ α Obs Act : Type} (E : Env σ Obs Act)
    (A : Agent α Obs Act) (g : Glue σ α Act) :
    stepCount (rl_start E A g).2.2 = 0 := by
  simp [rl_start, stepCount, isEnvStep]

/-- `rl_start` increments `_num_episodes` by one. -/
theorem rl_start_num_episodes {σ α Obs Act : Type} (E : Env σ Obs Act)
    (A : Agent α Obs Act) (g : Glue σ α Act) :
    (rl_start E A g).2.1._num_episodes = g._num_episodes + 1 := by
  simp [rl_start]

/-- `rl_start` zeroes `_num_ep_steps`. -/
theorem rl_start_num_ep_steps {σ α Obs Act : Type} (E : Env σ Obs Act)
    (A : Agent α Obs Act) (g : Glue σ α Act) :
    (rl_start E A g).2.1._num_ep_steps = 0 := by
  simp [rl_start]

/-- `sumRewards` is additive over trace concatenation. -/
theorem sumRewards_append {Obs Act : Type} (a b : List (Event Obs Act)) :
    sumRewards (a ++ b) = sumRewards a + sumRewards b := by
  simp [sumRewards]

/-- Any single mediator operation changes `_total_reward` by exactly the
sum of the rewards returned by the `env_step` calls it makes. -/
theorem runOp_total_reward {σ α Obs Act : Type} (E : Env σ Obs Act)
    (A : Agent α Obs Act) (g : Glue σ α Act) (op : Op Act) :
    (runOp E A g op).1._total_reward = g._total_reward + sumRewards (runOp E A g op).2 := by
  cases op with
  | start => simp [runOp, rl_start, sumRewards, eventReward]
  | step =>
    cases hb : (E.env_step g._environment g._action).2.2.2 <;>
      simp [runOp, rl_step, hb, sumRewards, eventReward]
  | envStart => simp [runOp, rl_env_start, sumRewards, eventReward]
  | envStep a =>
    cases hb : (E.env_step g._environment a).2.2.2 <;>
      simp [runOp, rl_env_step, hb, sumRewards, eventReward]
  | agentMsg m => simp [runOp, rl_agent_message, sumRewards, eventReward]
  | envMsg m => simp [runOp, rl_env_message, sumRewards, eventReward]

/-- Any sequence of mediator operations changes `_total_reward` by
exactly the sum of the rewards of its `env_step` calls. -/
theorem runOps_total_reward {σ α Obs Act : Type} (E : Env σ Obs Act)
    (A : Agent α Obs Act) (ops : List (Op Act)) :
    ∀ g : Glue σ α Act,
      (runOps E A g ops).1._total_reward = g._total_reward + sumRewards (runOps E A g ops).2 := by
  induction ops with
  | nil => intro g; simp [runOps, sumRewards]
  | cons op ops ih =>
    intro g
    simp only [runOps, sumRewards_append]
    rw [ih (runOp E A g op).1, runOp_total_reward]
    ring

/-- C3: starting from `rl_init` with `total_reward = 0`, after any
sequence of mediator operations, `total_reward` equals the sum of all
rewards returned by the `env_step` calls made by `rl_step` and
`rl_env_step` since the `rl_init`. -/
theorem C3_total_reward_is_reward_sum {σ α Obs Act : Type} (E : Env σ Obs Act)
    (A : Agent α Obs Act) (g : RLGlueRaw σ α Act) (s e : Int) (ops : List (Op Act)) :
    (runOps E A (rl_init E A g 0 s e).1 ops).1.total_reward =
      sumRewards (runOps E A (rl_init E A g 0 s e).1 ops).2 := by
  have h := runOps_total_reward E A ops (rl_init E A g 0 s e).1
  simpa [Glue.total_reward, rl_init] using h

/-- A protocol operation (`rl_start` or `rl_step`) changes `_num_steps`
by one exactly when it is an `rl_step`. -/
theorem runOp_num_steps_protocol {σ α Obs Act : Type} (E : Env σ Obs Act)
    (A : Agent α Obs Act) (g : Glue σ α Act) (op : Op Act)
    (h : isProtocolOp op = true) :
    (runOp E A g op).1._num_steps = g._num_steps + (if isStepOp op then 1 else 0) := by
  cases op with
  | start => simp [runOp, rl_start, isStepOp]
  | step => simp [runOp, isStepOp, rl_step_num_steps]
  | envStart => simp [isProtocolOp] at h
  | envStep a => simp [isProtocolOp] at h
  | agentMsg m => simp [isProtocolOp] at h
  | envMsg m => simp [isProtocolOp] at h

/-- Over any sequence of protocol operations, `_num_steps` grows by
exactly the number of `rl_step` calls. -/
theorem runOps_num_steps_protocol {σ α Obs Act : Type} (E : Env σ Obs Act)
    (A : Agent α Obs Act) (ops : List (Op Act)) :
    ∀ g : Glue σ α Act, (∀ op ∈ ops, isProtocolOp op = true) →
      (runOps E A g ops).1._num_steps = g._num_steps + (ops.countP isStepOp : Int) := by
  induction ops with
  | nil => intro g _; simp [runOps]
  | cons op ops ih =>
    intro g h
    have hop : isProtocolOp op = true := h op (List.mem_cons_self op ops)
    have hops : ∀ o ∈ ops, isProtocolOp o = true := fun o ho => h o (List.mem_cons_of_mem op ho)
    simp only [runOps]
    rw [ih (runOp E A g op).1 hops, runOp_num_steps_protocol E A g op hop,
        List.countP_cons]
    push_cast
    cases hs : isStepOp op
    all_goals simp
    all_goals ring

/-- C4: after `rl_init` with `num_steps = 0`, for every sequence of
environment responses driven through the normal protocol (`rl_start` and
`rl_step` operations), `num_steps` equals the number of `rl_step` calls
made since init; moreover every single `rl_step` call, terminal or not,
increments `num_steps` by exactly one. -/
theorem C4_num_steps_counts_step_calls {σ α Obs Act : Type} (E : Env σ Obs Act)
    (A : Agent α Obs Act) (g : RLGlueRaw σ α Act) (t e : Int) (ops : List (Op Act))
    (h : ∀ op ∈ ops, isProtocolOp op = true) :
    (runOps E A (rl_init E A g t 0 e).1 ops).1.num_steps = (ops.countP isStepOp : Int) ∧
    (∀ g2 : Glue σ α Act, (rl_step E A g2).2.1.num_steps = g2.num_steps + 1) := by
  constructor
  · have hr := runOps_num_steps_protocol E A ops (rl_init E A g t 0 e).1 h
    simpa [Glue.num_steps, rl_init] using hr
  · intro g2
    exact rl_step_num_steps E A g2

/-- C4 witness: a concrete three-operation protocol trace with two
`rl_step` calls ends with `num_steps = 2`. -/
theorem C4_witness :
    (runOps scriptEnv nullAgent (rl_init scriptEnv nullAgent (mkRLGlue [] ()) 0 0 0).1
        [Op.start, Op.step, Op.step]).1.num_steps = 2 ∧
    (rl_step scriptEnv nullAgent (scriptGlue [])).2.1.num_steps =
      (scriptGlue []).num_steps + 1 := by
  have h := C4_num_steps_counts_step_calls scriptEnv nullAgent (mkRLGlue [] ()) 0 0
    [Op.start, Op.step, Op.step] (by decide)
  exact ⟨h.1.trans (by decide), h.2 (scriptGlue [])⟩

/-- The `rl_episode` step loop never changes `_num_episodes`. -/
theorem rl_episode_loop_num_episodes {σ α Obs Act : Type} (E : Env σ Obs Act)
    (A : Agent α Obs Act) (ms : Int) :
    ∀ (fuel : Nat) (t : Bool) (g : Glue σ α Act) (r : Bool × Glue σ α Act × List (Event Obs Act)),
      rl_episode_loop E A ms fuel t g = some r → r.2.1._num_episodes = g._num_episodes := by
  intro fuel
  induction fuel with
  | zero =>
    intro t g r h
    simp only [rl_episode_loop] at h
    split at h
    · exact absurd h (by simp)
    · cases h; rfl
  | succ fuel ih =>
    intro t g r h
    simp only [rl_episode_loop] at h
    split at h
    · split at h
      · exact absurd h (by simp)
      · rename_i t2 g2 ev heq
        cases h
        have h2 := ih _ _ _ heq
        rw [h2, rl_step_num_episodes]
    · cases h; rfl

/-- C1 (amended): a completed `rl_episode` call increases `num_episodes`
by exactly two: once inside `rl_start` at episode start and once more
after the step loop; `rl_step` itself never changes it. -/
theorem C1_rl_episode_adds_two_episodes {σ α Obs Act : Type} (E : Env σ Obs Act)
    (A : Agent α Obs Act) (ms : Int) (fuel : Nat) (g : Glue σ α Act)
    (r : Bool × Glue σ α Act × List (Event Obs Act))
    (h : rl_episode E A ms fuel g = some r) :
    r.2.1.num_episodes = g.num_episodes + 2 := by
  simp only [rl_episode] at h
  split at h
  · exact absurd h (by simp)
  · rename_i t2 g2 ev heq
    cases h
    have h2 := rl_episode_loop_num_episodes E A ms fuel false _ _ heq
    show g2._num_episodes + 1 = g._num_episodes + 2
    rw [h2, rl_start_num_episodes]
    ring

/-- C1 counterexample: with a script environment that terminates on the
very first step, a single `rl_episode` call that ends in termination
moves `num_episodes` from 0 to 2, not to 1 as the claim states. -/
theorem C1_counterexample :
    ((rl_episode scriptEnv nullAgent 0 1 (scriptGlue [(0, true)])).map
        fun r => (r.1, r.2.1.num_episodes)) = some (true, 2) ∧
    ((rl_episode scriptEnv nullAgent 0 1 (scriptGlue [(0, true)])).map
        fun r => (r.1, r.2.1.num_episodes)) ≠ some (true, 1) := by
  constructor <;> decide

/-- C1 witness: the amended theorem applied to the one-step terminating
script. -/
theorem C1_witness :
    ∃ r, rl_episode scriptEnv nullAgent 0 1 (scriptGlue [(0, true)]) = some r ∧
      r.2.1.num_episodes = (scriptGlue [(0, true)]).num_episodes + 2 := by
  obtain ⟨r, hr⟩ : ∃ r, rl_episode scriptEnv nullAgent 0 1 (scriptGlue [(0, true)]) = some r :=
    ⟨_, rfl⟩
  exact ⟨r, hr, C1_rl_episode_adds_two_episodes scriptEnv nullAgent 0 1 _ r hr⟩

/-- C7 (amended): `rl_start` zeroes `episode_reward` and `num_ep_steps`,
asks the environment for the initial observation, asks the agent for the
first action given that observation, stores that action, and returns the
pair; within an episode `num_ep_steps` never decreases (each `rl_step`
adds one), and `episode_reward` changes by exactly the step reward, so it
never decreases when the reward is nonnegative. -/
theorem C7_rl_start_spec {σ α Obs Act : Type} (E : Env σ Obs Act) (A : Agent α Obs Act)
    (g : Glue σ α Act) :
    let es := E.env_start g._environment
    let action := (A.agent_start g._agent es.2).2
    let r := rl_start E A g
    r.2.1.episode_reward = 0 ∧
    r.2.1.num_ep_steps = 0 ∧
    r.1 = (es.2, action) ∧
    r.2.1._action = some action ∧
    r.2.1._environment = es.1 ∧
    r.2.1._agent = (A.agent_start g._agent es.2).1 ∧
    r.2.2 = [Event.envStart es.2, Event.agentStart es.2 action] ∧
    (∀ g2 : Glue σ α Act, g2.num_ep_steps ≤ (rl_step E A g2).2.1.num_ep_steps) ∧
    (∀ g2 : Glue σ α Act,
      (rl_step E A g2).2.1.episode_reward =
        g2.episode_reward + (E.env_step g2._environment g2._action).2.1) ∧
    (∀ g2 : Glue σ α Act, 0 ≤ (E.env_step g2._environment g2._action).2.1 →
      g2.episode_reward ≤ (rl_step E A g2).2.1.episode_reward) := by
  refine ⟨rfl, rfl, rfl, rfl, rfl, rfl, rfl, ?_, ?_, ?_⟩
  · intro g2
    have h := rl_step_num_ep_steps E A g2
    simp only [Glue.num_ep_steps, h]
    omega
  · intro g2
    exact rl_step_episode_reward E A g2
  · intro g2 hr
    have h := rl_step_episode_reward E A g2
    simp only [Glue.episode_reward, h]
    omega

/-- C7 counterexample: with a single step of reward `-1`,
`episode_reward` decreases from `0` right after `rl_start` to `-1` after
the next `rl_step`, refuting "episode_reward never decreases between
episode_start and the end of the episode". -/
theorem C7_counterexample :
    (rl_start scriptEnv nullAgent (scriptGlue [(-1, false)])).2.1.episode_reward = 0 ∧
    (rl_step scriptEnv nullAgent
        (rl_start scriptEnv nullAgent (scriptGlue [(-1, false)])).2.1).2.1.episode_reward = -1 ∧
    ¬((rl_start scriptEnv nullAgent (scriptGlue [(-1, false)])).2.1.episode_reward ≤
      (rl_step scriptEnv nullAgent
        (rl_start scriptEnv nullAgent (scriptGlue [(-1, false)])).2.1).2.1.episode_reward) := by
  refine ⟨by decide, by decide, by decide⟩

/-- C7 witness: the amended theorem applied to a concrete glue state,
discharging the nonnegative-reward hypothesis at reward `2`. -/
theorem C7_witness :
    (scriptGlue [(2, false)]).episode_reward ≤
      (rl_step scriptEnv nullAgent (scriptGlue [(2, false)])).2.1.episode_reward := by
  have h := C7_rl_start_spec scriptEnv nullAgent (scriptGlue [(2, false)])
  exact h.2.2.2.2.2.2.2.2.2 (scriptGlue [(2, false)]) (by decide)


/-- `stepCount` is additive over trace concatenation. -/
theorem stepCount_append {Obs Act : Type} (a b : List (Event Obs Act)) :
    stepCount (a ++ b) = stepCount a + stepCount b := by
  simp [stepCount, List.countP_append]

/-- The new environment state after `rl_step` is the one `env_step`
produced, in both branches. -/
theorem rl_step_environment {σ α Obs Act : Type} (E : Env σ Obs Act)
    (A : Agent α Obs Act) (g : Glue σ α Act) :
    (rl_step E A g).2.1._environment = (E.env_step g._environment g._action).1 := by
  cases hb : (E.env_step g._environment g._action).2.2.2 <;> simp [rl_step, hb]

/-- The new environment state after `rl_start` is the one `env_start`
produced. -/
theorem rl_start_environment {σ α Obs Act : Type} (E : Env σ Obs Act)
    (A : Agent α Obs Act) (g : Glue σ α Act) :
    (rl_start E A g).2.1._environment = (E.env_start g._environment).1 := by
  simp [rl_start]

/-- Once the terminal flag is true the episode loop exits immediately. -/
theorem rl_episode_loop_terminal {σ α Obs Act : Type} (E : Env σ Obs Act)
    (A : Agent α Obs Act) (ms : Int) (fuel : Nat) (g : Glue σ α Act) :
    rl_episode_loop E A ms fuel true g = some (true, g, []) := by
  cases fuel <;> simp [rl_episode_loop]

/-- With an environment that never reports terminal and a positive step
cap `N`, the episode loop takes exactly the remaining number of steps
and exits with terminal still `false`. -/
theorem rl_episode_loop_no_terminal {σ α Obs Act : Type} (E : Env σ Obs Act)
    (A : Agent α Obs Act) (hterm : ∀ s a, (E.env_step s a).2.2.2 = false)
    (N : Nat) (hN : 0 < N) :
    ∀ (rem fuel : Nat) (g : Glue σ α Act), rem ≤ fuel →
      g._num_ep_steps + (rem : Int) = (N : Int) →
      ∃ g2 ev, rl_episode_loop E A (N : Int) fuel false g = some (false, g2, ev) ∧
        stepCount ev = rem := by
  intro rem
  induction rem with
  | zero =>
    intro fuel g _ hg
    have hdis : ¬((N : Int) ≤ 0 ∨ g._num_ep_steps < (N : Int)) := by
      simp only [Nat.cast_zero, add_zero] at hg
      rintro (h | h) <;> omega
    refine ⟨g, [], ?_, rfl⟩
    cases fuel <;>
      · simp only [rl_episode_loop]
        split
        · rename_i hcond
          exact absurd hcond.2 hdis
        · rfl
  | succ rem ih =>
    intro fuel g hf hg
    cases fuel with
    | zero => omega
    | succ fuel =>
      have hdis : ((N : Int) ≤ 0 ∨ g._num_ep_steps < (N : Int)) := by
        refine Or.inr ?_
        push_cast at hg
        omega
      have ht : (rl_step E A g).1.2.2.1 = false := by
        rw [rl_step_ret_terminal]; exact hterm _ _
      have hsteps : (rl_step E A g).2.1._num_ep_steps + (rem : Int) = (N : Int) := by
        rw [rl_step_num_ep_steps]
        push_cast at hg ⊢
        omega
      obtain ⟨g2, ev, hloop, hcount⟩ := ih fuel (rl_step E A g).2.1 (by omega) hsteps
      refine ⟨g2, (rl_step E A g).2.2 ++ ev, ?_, ?_⟩
      · simp only [rl_episode_loop, ht, hloop]
        split
        · rfl
        · rename_i hcond
          exact absurd ⟨by trivial, hdis⟩ hcond
      · rw [stepCount_append, rl_step_stepCount, hcount]
        omega

/-- With an environment that never reports terminal, `rl_episode` with a
positive step cap `N` (and enough fuel) makes exactly `N` `env_step`
calls and returns `false`. -/
theorem rl_episode_no_terminal {σ α Obs Act : Type} (E : Env σ Obs Act)
    (A : Agent α Obs Act) (hterm : ∀ s a, (E.env_step s a).2.2.2 = false)
    (N fuel : Nat) (g : Glue σ α Act) (hN : 0 < N) (hf : N ≤ fuel) :
    ∃ g2 ev, rl_episode E A (N : Int) fuel g = some (false, g2, ev) ∧ stepCount ev = N := by
  have hstart : (rl_start E A g).2.1._num_ep_steps + (N : Int) = (N : Int) := by
    rw [rl_start_num_ep_steps]; ring
  obtain ⟨g2, ev, hloop, hcount⟩ :=
    rl_episode_loop_no_terminal E A hterm N hN N fuel (rl_start E A g).2.1 hf hstart
  refine ⟨{ g2 with _num_episodes := g2._num_episodes + 1 },
    (rl_start E A g).2.2 ++ ev, ?_, ?_⟩
  · simp only [rl_episode, hloop]
  · rw [stepCount_append, rl_start_stepCount, hcount]
    omega

/-- Over the script environment, if the script plays `pre` non-terminal
responses and then a terminal one (within the fuel and the step cap),
the episode loop stops at that first terminal step and returns `true`,
having made exactly `pre.length + 1` `env_step` calls. -/
theorem rl_episode_loop_script (N : Int) :
    ∀ (pre : List (Int × Bool)) (fuel : Nat) (g : Glue (List (Int × Bool)) Unit Unit)
      (c : Int) (rest : List (Int × Bool)),
      (∀ p ∈ pre, p.2 = false) →
      g._environment = pre ++ (c, true) :: rest →
      pre.length < fuel →
      (N ≤ 0 ∨ g._num_ep_steps + (pre.length : Int) < N) →
      ∃ g2 ev, rl_episode_loop scriptEnv nullAgent N fuel false g = some (true, g2, ev) ∧
        stepCount ev = pre.length + 1 := by
  intro pre
  induction pre with
  | nil =>
    intro fuel g c rest _ henv hfuel hN
    cases fuel with
    | zero => omega
    | succ fuel =>
      have hdis : (N ≤ 0 ∨ g._num_ep_steps < N) := by
        rcases hN with h | h
        · exact Or.inl h
        · right; omega
      have hs : scriptEnv.env_step g._environment g._action = (rest, (c, (), true)) := by
        rw [henv]
        rfl
      have ht : (rl_step scriptEnv nullAgent g).1.2.2.1 = true := by
        rw [rl_step_ret_terminal, hs]
      refine ⟨(rl_step scriptEnv nullAgent g).2.1,
        (rl_step scriptEnv nullAgent g).2.2 ++ [], ?_, ?_⟩
      · simp only [rl_episode_loop, ht, rl_episode_loop_terminal]
        split
        · rfl
        · rename_i hcond
          exact absurd ⟨by trivial, hdis⟩ hcond
      · rw [stepCount_append, rl_step_stepCount]
        rfl
  | cons p pre ih =>
    intro fuel g c rest hflags henv hfuel hN
    cases fuel with
    | zero => simp at hfuel
    | succ fuel =>
      have hp : p.2 = false := hflags p (List.mem_cons_self p pre)
      have hpre : ∀ q ∈ pre, q.2 = false := fun q hq => hflags q (List.mem_cons_of_mem p hq)
      have hdis : (N ≤ 0 ∨ g._num_ep_steps < N) := by
        rcases hN with h | h
        · exact Or.inl h
        · right
          simp only [List.length_cons] at h
          push_cast at h
          omega
      have hs : scriptEnv.env_step g._environment g._action =
          (pre ++ (c, true) :: rest, (p.1, (), p.2)) := by
        rw [henv]
        rfl
      have ht : (rl_step scriptEnv nullAgent g).1.2.2.1 = false := by
        rw [rl_step_ret_terminal, hs, hp]
      have henv2 : (rl_step scriptEnv nullAgent g).2.1._environment =
          pre ++ (c, true) :: rest := by
        rw [rl_step_environment, hs]
      have hN2 : N ≤ 0 ∨ (rl_step scriptEnv nullAgent g).2.1._num_ep_steps +
          (pre.length : Int) < N := by
        rcases hN with h | h
        · exact Or.inl h
        · right
          rw [rl_step_num_ep_steps]
          simp only [List.length_cons] at h
          push_cast at h ⊢
          omega
      obtain ⟨g2, ev, hloop, hcount⟩ := ih fuel (rl_step scriptEnv nullAgent g).2.1 c rest
        hpre henv2 (by simp at hfuel; omega) hN2
      refine ⟨g2, (rl_step scriptEnv nullAgent g).2.2 ++ ev, ?_, ?_⟩
      · simp only [rl_episode_loop, ht, hloop]
        split
        · rfl
        · rename_i hcond
          exact absurd ⟨by trivial, hdis⟩ hcond
      · rw [stepCount_append, rl_step_stepCount, hcount]
        simp only [List.length_cons]
        omega

/-- Over the script environment, `rl_episode` stops at the first
terminal response and returns `true`. -/
theorem rl_episode_script (N : Int) (fuel : Nat) (g : Glue (List (Int × Bool)) Unit Unit)
    (pre : List (Int × Bool)) (c : Int) (rest : List (Int × Bool))
    (hflags : ∀ p ∈ pre, p.2 = false)
    (henv : g._environment = pre ++ (c, true) :: rest)
    (hfuel : pre.length < fuel)
    (hN : N ≤ 0 ∨ (pre.length : Int) < N) :
    ∃ g2 ev, rl_episode scriptEnv nullAgent N fuel g = some (true, g2, ev) ∧
      stepCount ev = pre.length + 1 := by
  have hstart_env : (rl_start scriptEnv nullAgent g).2.1._environment =
      pre ++ (c, true) :: rest := by
    rw [rl_start_environment, henv]
    rfl
  have hN2 : N ≤ 0 ∨ (rl_start scriptEnv nullAgent g).2.1._num_ep_steps +
      (pre.length : Int) < N := by
    rw [rl_start_num_ep_steps]
    simpa using hN
  obtain ⟨g2, ev, hloop, hcount⟩ :=
    rl_episode_loop_script N pre fuel (rl_start scriptEnv nullAgent g).2.1 c rest
      hflags hstart_env hfuel hN2
  refine ⟨{ g2 with _num_episodes := g2._num_episodes + 1 },
    (rl_start scriptEnv nullAgent g).2.2 ++ ev, ?_, ?_⟩
  · simp only [rl_episode, hloop]
  · rw [stepCount_append, rl_start_stepCount, hcount]
    omega

/-- Over the script environment, if none of the next `rem` scripted
responses is terminal, the episode loop with positive cap `N` takes the
remaining `rem` steps and exits with terminal still `false`. -/
theorem rl_episode_loop_script_cap (N : Nat) (hN : 0 < N) :
    ∀ (rem fuel : Nat) (g : Glue (List (Int × Bool)) Unit Unit), rem ≤ fuel →
      (∀ p ∈ g._environment.take rem, p.2 = false) →
      g._num_ep_steps + (rem : Int) = (N : Int) →
      ∃ g2 ev, rl_episode_loop scriptEnv nullAgent (N : Int) fuel false g =
        some (false, g2, ev) ∧ stepCount ev = rem := by
  intro rem
  induction rem with
  | zero =>
    intro fuel g _ _ hg
    have hdis : ¬((N : Int) ≤ 0 ∨ g._num_ep_steps < (N : Int)) := by
      simp only [Nat.cast_zero, add_zero] at hg
      rintro (h | h) <;> omega
    refine ⟨g, [], ?_, rfl⟩
    cases fuel <;>
      · simp only [rl_episode_loop]
        split
        · rename_i hcond
          exact absurd hcond.2 hdis
        · rfl
  | succ rem ih =>
    intro fuel g hf hflags hg
    cases fuel with
    | zero => omega
    | succ fuel =>
      have hdis : ((N : Int) ≤ 0 ∨ g._num_ep_steps < (N : Int)) := by
        refine Or.inr ?_
        push_cast at hg
        omega
      have hsteps : (rl_step scriptEnv nullAgent g).2.1._num_ep_steps + (rem : Int) =
          (N : Int) := by
        rw [rl_step_num_ep_steps]
        push_cast at hg ⊢
        omega
      rcases hsc : g._environment with _ | ⟨p, rest⟩
      · have hs : scriptEnv.env_step g._environment g._action = ([], (0, (), false)) := by
          rw [hsc]
          rfl
        have ht : (rl_step scriptEnv nullAgent g).1.2.2.1 = false := by
          rw [rl_step_ret_terminal, hs]
        have henv2 : (rl_step scriptEnv nullAgent g).2.1._environment = [] := by
          rw [rl_step_environment, hs]
        have hflags2 : ∀ p ∈ (rl_step scriptEnv nullAgent g).2.1._environment.take rem,
            p.2 = false := by
          rw [henv2]
          simp
        obtain ⟨g2, ev, hloop, hcount⟩ :=
          ih fuel (rl_step scriptEnv nullAgent g).2.1 (by omega) hflags2 hsteps
        refine ⟨g2, (rl_step scriptEnv nullAgent g).2.2 ++ ev, ?_, ?_⟩
        · simp only [rl_episode_loop, ht, hloop]
          split
          · rfl
          · rename_i hcond
            exact absurd ⟨by trivial, hdis⟩ hcond
        · rw [stepCount_append, rl_step_stepCount, hcount]
          omega
      · have hp : p.2 = false := by
          refine hflags p ?_
          rw [hsc, List.take_succ_cons]
          exact List.mem_cons_self p (rest.take rem)
        have hs : scriptEnv.env_step g._environment g._action =
            (rest, (p.1, (), p.2)) := by
          rw [hsc]
          rfl
        have ht : (rl_step scriptEnv nullAgent g).1.2.2.1 = false := by
          rw [rl_step_ret_terminal, hs, hp]
        have henv2 : (rl_step scriptEnv nullAgent g).2.1._environment = rest := by
          rw [rl_step_environment, hs]
        have hflags2 : ∀ q ∈ (rl_step scriptEnv nullAgent g).2.1._environment.take rem,
            q.2 = false := by
          rw [henv2]
          intro q hq
          refine hflags q ?_
          rw [hsc, List.take_succ_cons]
          exact List.mem_cons_of_mem p hq
        obtain ⟨g2, ev, hloop, hcount⟩ :=
          ih fuel (rl_step scriptEnv nullAgent g).2.1 (by omega) hflags2 hsteps
        refine ⟨g2, (rl_step scriptEnv nullAgent g).2.2 ++ ev, ?_, ?_⟩
        · simp only [rl_episode_loop, ht, hloop]
          split
          · rfl
          · rename_i hcond
            exact absurd ⟨by trivial, hdis⟩ hcond
        · rw [stepCount_append, rl_step_stepCount, hcount]
          omega

/-- Over the script environment, if none of the first `N` scripted
responses is terminal, `rl_episode` with cap `N > 0` makes exactly `N`
`env_step` calls and returns `false`. -/
theorem rl_episode_script_cap (N fuel : Nat) (g : Glue (List (Int × Bool)) Unit Unit)
    (hN : 0 < N) (hf : N ≤ fuel)
    (hflags : ∀ p ∈ g._environment.take N, p.2 = false) :
    ∃ g2 ev, rl_episode scriptEnv nullAgent (N : Int) fuel g = some (false, g2, ev) ∧
      stepCount ev = N := by
  have hstart_env : (rl_start scriptEnv nullAgent g).2.1._environment = g._environment := by
    rw [rl_start_environment]
    rfl
  have hflags2 : ∀ p ∈ (rl_start scriptEnv nullAgent g).2.1._environment.take N,
      p.2 = false := by
    rw [hstart_env]
    exact hflags
  have hstart : (rl_start scriptEnv nullAgent g).2.1._num_ep_steps + (N : Int) = (N : Int) := by
    rw [rl_start_num_ep_steps]
    ring
  obtain ⟨g2, ev, hloop, hcount⟩ :=
    rl_episode_loop_script_cap N hN N fuel (rl_start scriptEnv nullAgent g).2.1 hf
      hflags2 hstart
  refine ⟨{ g2 with _num_episodes := g2._num_episodes + 1 },
    (rl_start scriptEnv nullAgent g).2.2 ++ ev, ?_, ?_⟩
  · simp only [rl_episode, hloop]
  · rw [stepCount_append, rl_start_stepCount, hcount]
    omega

/-- C2: (i) with a positive step cap `N` and an environment that never
reports terminal, `rl_episode` makes exactly `N` `env_step` calls and
returns `false`; (ii) likewise when only the first `N` scripted
responses are known to be non-terminal; (iii) with an environment whose
response script reports terminal at or before the cap, `rl_episode`
stops at the first terminal step and returns `true`; (iv) concretely,
with responses `[1, 1, 5-terminal]` and `max_steps = 0`, `rl_episode`
makes 3 step calls, ends with `episode_reward = 7` and
`num_ep_steps = 3`, and returns `true`. -/
theorem C2_rl_episode_cap_and_termination :
    (∀ (σ α Obs Act : Type) (E : Env σ Obs Act) (A : Agent α Obs Act) (N fuel : Nat)
        (g : Glue σ α Act), (∀ s a, (E.env_step s a).2.2.2 = false) → 0 < N → N ≤ fuel →
        ∃ g2 ev, rl_episode E A (N : Int) fuel g = some (false, g2, ev) ∧
          stepCount ev = N) ∧
    (∀ (N fuel : Nat) (g : Glue (List (Int × Bool)) Unit Unit), 0 < N → N ≤ fuel →
        (∀ p ∈ g._environment.take N, p.2 = false) →
        ∃ g2 ev, rl_episode scriptEnv nullAgent (N : Int) fuel g = some (false, g2, ev) ∧
          stepCount ev = N) ∧
    (∀ (pre : List (Int × Bool)) (c : Int) (rest : List (Int × Bool)) (N : Int) (fuel : Nat)
        (g : Glue (List (Int × Bool)) Unit Unit),
        (∀ p ∈ pre, p.2 = false) → g._environment = pre ++ (c, true) :: rest →
        pre.length < fuel → (N ≤ 0 ∨ (pre.length : Int) < N) →
        ∃ g2 ev, rl_episode scriptEnv nullAgent N fuel g = some (true, g2, ev) ∧
          stepCount ev = pre.length + 1) ∧
    ((rl_episode scriptEnv nullAgent 0 3 (scriptGlue [(1, false), (1, false), (5, true)])).map
        fun r => (r.1, r.2.1.episode_reward, r.2.1.num_ep_steps, stepCount r.2.2)) =
      some (true, 7, 3, 3) := by
  refine ⟨?_, ?_, ?_, by decide⟩
  · intro σ α Obs Act E A N fuel g hterm hN hf
    exact rl_episode_no_terminal E A hterm N fuel g hN hf
  · intro N fuel g hN hf hflags
    exact rl_episode_script_cap N fuel g hN hf hflags
  · intro pre c rest N fuel g hflags henv hfuel hN
    exact rl_episode_script N fuel g pre c rest hflags henv hfuel hN

/-- C2 witness: part (i) of the theorem applied to the never-terminating
constant environment with `N = fuel = 2`. -/
theorem C2_witness :
    ∃ g2 ev, rl_episode constEnv nullAgent ((2 : Nat) : Int) 2 constGlue =
      some (false, g2, ev) ∧ stepCount ev = 2 :=
  C2_rl_episode_cap_and_termination.1 Unit Unit Unit Unit constEnv nullAgent 2 2 constGlue
    (fun _ _ => rfl) (by decide) (by decide)
